import Mathlib

/-
Verification of the catalog reconciliation scripts (combine_manual_scrapes.py,
fix_categories.py, database/supabase_client.py, database/upload_data.py)
against their natural-language specification.

Python records are untyped dicts; they are embedded as a structure of
optional dynamic values over the fields the scripts read and write.
String operations mirror Python str semantics (split, substring test,
lower) on ASCII data.
-/

set_option autoImplicit false

namespace RhoneData

/-- Decides whether the first character list is a leading segment of the second. -/
def charsStartWith : List Char → List Char → Bool
  | [], _ => true
  | _ :: _, [] => false
  | a :: as, b :: bs => a == b && charsStartWith as bs

/-- Decides whether `pat` occurs contiguously inside the second list,
mirroring the Python `in` test on strings. -/
def strContainsChars (pat : List Char) : List Char → Bool
  | [] => charsStartWith pat []
  | c :: rest => charsStartWith pat (c :: rest) || strContainsChars pat rest

/-- Python `pat in s` for strings. -/
def strContains (s pat : String) : Bool := strContainsChars pat.toList s.toList

/-- Fuel-based worker for `pySplit`; fuel is the length of the scanned list,
so the zero-fuel arm is unreachable on the actual calls. -/
def pySplitFuel (c0 : Char) (crest : List Char) : Nat → List Char → List (List Char)
  | _, [] => [[]]
  | 0, s => [s]
  | fuel + 1, c :: rest =>
    if charsStartWith (c0 :: crest) (c :: rest) then
      [] :: pySplitFuel c0 crest fuel (List.drop crest.length rest)
    else
      match pySplitFuel c0 crest fuel rest with
      | [] => [[c]]
      | h :: t => (c :: h) :: t

/-- Python `s.split(sep)` for a non-empty separator: leftmost, non-overlapping
occurrences of `sep` cut `s` into pieces. -/
def pySplit (s sep : String) : List String :=
  match sep.toList with
  | [] => [s]
  | c0 :: crest => (pySplitFuel c0 crest s.toList.length s.toList).map String.mk

/-- Python `s.lower()` (character-wise lowercasing, faithful on ASCII). -/
def lowerStr (s : String) : String := String.mk (s.toList.map Char.toLower)

/-- Dynamic values carried by the scraped JSON records: null, booleans,
integers, strings, and sequences.  (Fractional prices are not needed by
any verified claim, so numbers are embedded as integers.) -/
inductive Value where
  | vnull
  | vbool (b : Bool)
  | vint (n : Int)
  | vstr (s : String)
  | vlist (l : List Value)

/-- Python truthiness of a `Value`: None, False, 0, the empty string and the
empty list are falsy. -/
def truthy : Value → Bool
  | .vnull => false
  | .vbool b => b
  | .vint n => n != 0
  | .vstr s => s != ""
  | .vlist l => !l.isEmpty

/-- Truthiness of `dict.get(key)`: an absent key yields None, which is falsy. -/
def truthyOpt : Option Value → Bool
  | none => false
  | some v => truthy v

/-- Python `len` on a value: defined for strings and sequences, a `TypeError`
(here `none`) otherwise. -/
def pyLenOf : Value → Option Nat
  | .vstr s => some s.length
  | .vlist l => some l.length
  | _ => none

/-- Python `repr` for the embedded values.  String escaping of quote and
backslash characters inside `repr` of a string is not modelled; no verified
claim evaluates `repr` on such data. -/
def pyRepr : Value → String
  | .vnull => "None"
  | .vbool b => if b then "True" else "False"
  | .vint n => toString n
  | .vstr s => "\x27" ++ s ++ "\x27"
  | .vlist l => "[" ++ String.intercalate ", " (l.attach.map (fun x => pyRepr x.1)) ++ "]"
decreasing_by
  have h := x.2
  have : sizeOf x.1 < sizeOf l := List.sizeOf_lt_of_mem h
  simp only [Value.vlist.sizeOf_spec]
  omega

/-- Python `str()` conversion: the identity on strings, `repr` otherwise. -/
def pyStr : Value → String
  | .vstr s => s
  | v => pyRepr v

/-- One scraped product record.  The Python scripts treat records as dicts;
this structure lists exactly the keys the verified scripts read or write,
each either absent (`none`) or present with a dynamic value. -/
structure Product where
  url : Option Value := none
  product_id : Option Value := none
  name : Option Value := none
  category : Option Value := none
  gender : Option Value := none
  scraped_at : Option Value := none
  currency : Option Value := none
  colors : Option Value := none
  sizes : Option Value := none
  fabrics : Option Value := none
  images : Option Value := none
  image : Option Value := none
  is_best_seller : Option Value := none
  original_price : Option Value := none
  price : Option Value := none

/-- URL canonicalisation of combine_manual_scrapes.py lines 95-102: take the
text before the first question mark; if the literal text `?variant=` occurs in
the URL, re-append the variant parameter (text after the first `?variant=`
up to the next ampersand). -/
def uniqueUrl (url : String) : String :=
  let base_url := (pySplit url "?").headD ""
  if strContains url "?variant=" then
    let variant_param := (pySplit ((pySplit url "?variant=").getD 1 "") "&").headD ""
    base_url ++ "?variant=" ++ variant_param
  else
    base_url

/-- Category token lookup on a source filename
(combine_manual_scrapes.py, extract_category_from_filename). -/
def extract_category_from_filename (filename : String) : Option String :=
  let f := lowerStr filename
  if strContains f "accessories" then some "Accessories"
  else if strContains f "outerwear" || strContains f "jackets" then some "Outerwear"
  else if strContains f "shorts" then some "Shorts"
  else if strContains f "bottoms" || strContains f "pants" then some "Bottoms"
  else if strContains f "tops" || strContains f "shirts" then some "Tops"
  else if strContains f "leggings" then some "Leggings"
  else if strContains f "bras" || strContains f "sports-bras" then some "Sports Bras"
  else none

/-- Merge condition of combine_manual_scrapes.py lines 108-112 for a single
incoming value `v` against the existing value `exv` of the same key: returns
whether the incoming value replaces the existing one, or a `TypeError`
(Python `len` applied to a truthy sized-less value). -/
def mergeAdopt (exv : Option Value) (v : Value) : Except Unit Bool :=
  if truthy v = false then .ok false
  else
    match exv with
    | none => .ok true
    | some e =>
      if truthy e = false then .ok true
      else
        match v with
        | .vlist l =>
          match pyLenOf e with
          | some n => .ok (decide (n < l.length))
          | none => .error ()
        | .vstr s => .ok (decide ((pyStr e).length < s.length))
        | _ => .ok false

/-- Effect of the merge loop on one key: a key absent from the incoming record
leaves the existing value; a present incoming value replaces the existing one
exactly when `mergeAdopt` accepts it. -/
def mergeField (exv inv : Option Value) : Except Unit (Option Value) :=
  match inv with
  | none => .ok exv
  | some v =>
    match mergeAdopt exv v with
    | .error e => .error e
    | .ok b => .ok (if b then some v else exv)

/-- One step of the field-by-field merge loop: on a `TypeError` the loop stops
with the updates made so far (Python mutates the existing dict in place), and
the error flag is raised. -/
def mergeStep (inv : Option Value) (get : Product → Option Value)
    (set : Product → Option Value → Product) (k : Product → Product × Bool)
    (p : Product) : Product × Bool :=
  match mergeField (get p) inv with
  | .error _ => (p, true)
  | .ok v => k (set p v)

/-- Field-by-field merge of an incoming record into the existing record with
the same canonical key (combine_manual_scrapes.py lines 104-112).  Python
iterates the incoming dict keys in insertion order; that order is modelled as
the fixed field order below, which only determines which fields precede a
(claims-unreachable) `TypeError`. -/
def mergeInto (e i : Product) : Product × Bool :=
  mergeStep i.url (fun p => p.url) (fun p v => { p with url := v })
  (mergeStep i.product_id (fun p => p.product_id) (fun p v => { p with product_id := v })
  (mergeStep i.name (fun p => p.name) (fun p v => { p with name := v })
  (mergeStep i.category (fun p => p.category) (fun p v => { p with category := v })
  (mergeStep i.gender (fun p => p.gender) (fun p v => { p with gender := v })
  (mergeStep i.scraped_at (fun p => p.scraped_at) (fun p v => { p with scraped_at := v })
  (mergeStep i.currency (fun p => p.currency) (fun p v => { p with currency := v })
  (mergeStep i.colors (fun p => p.colors) (fun p v => { p with colors := v })
  (mergeStep i.sizes (fun p => p.sizes) (fun p v => { p with sizes := v })
  (mergeStep i.fabrics (fun p => p.fabrics) (fun p v => { p with fabrics := v })
  (mergeStep i.images (fun p => p.images) (fun p v => { p with images := v })
  (mergeStep i.image (fun p => p.image) (fun p v => { p with image := v })
  (mergeStep i.is_best_seller (fun p => p.is_best_seller) (fun p v => { p with is_best_seller := v })
  (mergeStep i.original_price (fun p => p.original_price) (fun p v => { p with original_price := v })
  (mergeStep i.price (fun p => p.price) (fun p v => { p with price := v })
  (fun p => (p, false)))))))))))))))) e

/-- Insertion-ordered map from canonical keys to accumulated records,
mirroring the Python dict `products_by_url`. -/
abbrev ProductMap := List (String × Product)

/-- Lookup of a key in the accumulation map. -/
def alistFind : ProductMap → String → Option Product
  | [], _ => none
  | (k, v) :: rest, key => if k = key then some v else alistFind rest key

/-- Python dict assignment `m[key] = v`: replaces the value in place when the
key is present (keeping its position) and appends the pair otherwise. -/
def alistSet : ProductMap → String → Product → ProductMap
  | [], key, v => [(key, v)]
  | (k, w) :: rest, key, v =>
    if k = key then (k, v) :: rest else (k, w) :: alistSet rest key v

/-- Filename-tier category assignment at read time (combine_manual_scrapes.py
lines 91-93): applied only when a filename category exists and the record has
a falsy category. -/
def setFileCategory (fileCat : Option String) (p : Product) : Product :=
  match fileCat with
  | none => p
  | some c => if truthyOpt p.category then p else { p with category := some (.vstr c) }

/-- Per-record accumulation step (combine_manual_scrapes.py lines 83-119):
skip records with a falsy url or product_id; apply the read-time filename
category; compute the canonical key; merge on a key collision (then
unconditionally overwrite the category from the filename), insert otherwise.
The boolean is the caught-exception flag that aborts the rest of the file:
it is raised by a non-string truthy url (AttributeError on split) or by a
`TypeError` inside the merge loop. -/
def processProduct (fileCat : Option String) (m : ProductMap) (p : Product) :
    ProductMap × Bool :=
  if !truthyOpt p.url || !truthyOpt p.product_id then (m, false)
  else
    match p.url with
    | some (.vstr u) =>
      match alistFind m (uniqueUrl u) with
      | some existing =>
        if (mergeInto existing (setFileCategory fileCat p)).2 then
          (alistSet m (uniqueUrl u) (mergeInto existing (setFileCategory fileCat p)).1, true)
        else
          match fileCat with
          | some c =>
            (alistSet m (uniqueUrl u)
              { (mergeInto existing (setFileCategory fileCat p)).1 with
                category := some (.vstr c) }, false)
          | none =>
            (alistSet m (uniqueUrl u) (mergeInto existing (setFileCategory fileCat p)).1, false)
      | none => (alistSet m (uniqueUrl u) (setFileCategory fileCat p), false)
    | _ => (m, true)

/-- Records of one file in source order; a raised flag from a record stops the
rest of that file (the per-file try/except), keeping the map state. -/
def processProducts (fileCat : Option String) : ProductMap → List Product → ProductMap
  | m, [] => m
  | m, p :: ps =>
    if (processProduct fileCat m p).2 then (processProduct fileCat m p).1
    else processProducts fileCat (processProduct fileCat m p).1 ps

/-- Accumulation over all input files in order, each contributing its
filename-derived category. -/
def buildMap : ProductMap → List (String × List Product) → ProductMap
  | m, [] => m
  | m, (fname, ps) :: files =>
    buildMap (processProducts (extract_category_from_filename fname) m ps) files

/-- Structural-default filling and field rewrites of combine_manual_scrapes.py
lines 135-168: fill scraped_at (with the current timestamp, passed here as an
explicit argument), currency, colors, sizes, fabrics and is_best_seller when
the key is absent; force images to a list (wrapping a truthy singular image);
drop the singular image key; rename original_price to price. -/
def normalizeDefaults (now : String) (p : Product) : Product :=
  { p with
    scraped_at := some (p.scraped_at.getD (.vstr now)),
    currency := some (p.currency.getD (.vstr "USD")),
    colors := some (p.colors.getD (.vlist [])),
    sizes := some (p.sizes.getD (.vlist [])),
    fabrics := some (p.fabrics.getD (.vlist [])),
    images := some (match p.images with
      | some v => v
      | none =>
        match p.image with
        | some iv => if truthy iv then .vlist [iv] else .vlist []
        | none => .vlist []),
    image := none,
    is_best_seller := some (p.is_best_seller.getD (.vbool false)),
    price := (match p.original_price with
      | some op => some op
      | none => p.price),
    original_price := none }

/-- Detects a missing or placeholder category (combine_manual_scrapes.py line
171): falsy, or equal to the strings null or Other. -/
def categoryUnset : Option Value → Bool
  | none => true
  | some (.vstr s) => s == "" || s == "null" || s == "Other"
  | some v => !truthy v

/-- Python get of a key with the empty string as default, followed by lower():
the empty string for an absent key, lowercasing for a string value, and an
AttributeError for any other value. -/
def pyLowerOfGet : Option Value → Except Unit String
  | none => .ok ""
  | some (.vstr s) => .ok (lowerStr s)
  | some _ => .error ()

/-- Decides whether any keyword of the group occurs in the URL or the name. -/
def anyTokenIn (url name : String) (toks : List String) : Bool :=
  toks.any (fun x => strContains url x || strContains name x)

/-- Ordered keyword cascade of combine_manual_scrapes.py lines 179-205 over
the lower-cased URL and name. -/
def categorize (url name : String) : String :=
  if anyTokenIn url name ["accessories", "beanie", "hat", "cap", "sock", "glove",
      "belt", "bag", "backpack", "headband", "wristband", "towel", "gift",
      "collar", "cup", "candle", "paddle", "bottle"] then "Accessories"
  else if anyTokenIn url name ["jacket", "hoodie", "vest", "fleece", "blazer",
      "coat", "pullover", "quarter-zip", "half-zip", "full-zip", "puffer"] then
    if strContains name "short" && strContains name "sleeve" && !strContains name "jacket" then
      "Tops"
    else "Outerwear"
  else if anyTokenIn url name ["bra", "sports-bra", "sportsbra"] then "Sports Bras"
  else if strContains url "legging" || strContains name "legging" then "Leggings"
  else if strContains url "short" || (strContains name "short" && !strContains name "sleeve") then
    "Shorts"
  else if anyTokenIn url name ["pant", "jogger", "bottom", "sweatpant", "trouser",
      "commuter", "chino", "swift", "tight"] then "Bottoms"
  else if anyTokenIn url name ["shirt", "tee", "t-shirt", "tank", "polo", "top",
      "henley", "crew", "v-neck", "sleeve", "crewneck", "mock-neck", "sweater"] then
    "Tops"
  else "Tops"

/-- Category repair of combine_manual_scrapes.py lines 170-205: when the
category is missing or a placeholder, re-derive it from the lower-cased URL
and name through the keyword cascade. -/
def fixCategory (p : Product) : Except Unit Product :=
  if categoryUnset p.category then
    match pyLowerOfGet p.url with
    | .error e => .error e
    | .ok url =>
      match pyLowerOfGet p.name with
      | .error e => .error e
      | .ok name => .ok { p with category := some (.vstr (categorize url name)) }
  else .ok p

/-- Gender repair of combine_manual_scrapes.py lines 207-212: unconditional
URL-substring test, overwriting any present gender when a signal is found. -/
def fixGender (p : Product) : Except Unit Product :=
  match pyLowerOfGet p.url with
  | .error e => .error e
  | .ok url =>
    if strContains url "womens" || strContains url "/women" then
      .ok { p with gender := some (.vstr "Women") }
    else if strContains url "mens" || strContains url "/men" then
      .ok { p with gender := some (.vstr "Men") }
    else .ok p

/-- Full per-record clean-up pass of combine_manual_scrapes.py lines 133-214:
defaults and rewrites, then category repair, then gender repair.  An error is
an uncaught AttributeError that crashes the whole run. -/
def cleanupProduct (now : String) (p : Product) : Except Unit Product :=
  match fixCategory (normalizeDefaults now p) with
  | .error e => .error e
  | .ok p2 => fixGender p2

/-- Clean-up loop over the accumulated records in map insertion order;
an error anywhere aborts the run with no output. -/
def cleanupAll (now : String) : ProductMap → Except Unit (List Product)
  | [] => .ok []
  | kv :: rest =>
    match cleanupProduct now kv.2 with
    | .error e => .error e
    | .ok q =>
      match cleanupAll now rest with
      | .error e => .error e
      | .ok qs => .ok (q :: qs)

/-- Whole reconciliation run of combine_manual_scrapes.py: accumulate all
files into the keyed map, then clean up every accumulated record in insertion
order.  The current timestamp is passed explicitly. -/
def combine_manual_scrapes (now : String) (files : List (String × List Product)) :
    Except Unit (List Product) :=
  cleanupAll now (buildMap [] files)

/-- Canonical key recomputed from a stored record, for stating key uniqueness
of the output. -/
def recKey (p : Product) : String :=
  match p.url with
  | some (.vstr u) => uniqueUrl u
  | _ => ""

/-- Outcome of one store insert call: accepted, or rejected with the message
text of the raised exception. -/
inductive InsertResult where
  | ok
  | err (msg : String)

/-- Rejection-reason test of supabase_client.py line 103: a message mentioning
duplicate, unique or null value is skipped silently. -/
def rejectionSilent (msg : String) : Bool :=
  strContains (lowerStr msg) "duplicate" || strContains (lowerStr msg) "unique" ||
    strContains (lowerStr msg) "null value"

/-- Result of one batch call: the accepted records, the count of records
skipped for a falsy name, and the rejections reported to the caller. -/
structure BatchResult where
  successful : List Product
  skippedNoName : Nat
  reported : List (Product × String)

/-- Per-record insert loop of supabase_client.py insert_products_batch (lines
68-111): records with a falsy name are skipped and counted before the insert
is attempted; each remaining record is attempted as an individual
insert-or-fail call against the store (abstracted as the function `ins`,
which also absorbs the JSONB serialisation of the list fields); a rejection
with a silent reason is dropped, any other rejection is reported for that
record only, and the loop always continues with the remaining records. -/
def insert_products_batch (ins : Product → InsertResult) : List Product → BatchResult
  | [] => ⟨[], 0, []⟩
  | p :: ps =>
    if !truthyOpt p.name then
      ⟨(insert_products_batch ins ps).successful,
        (insert_products_batch ins ps).skippedNoName + 1,
        (insert_products_batch ins ps).reported⟩
    else
      match ins p with
      | .ok =>
        ⟨p :: (insert_products_batch ins ps).successful,
          (insert_products_batch ins ps).skippedNoName,
          (insert_products_batch ins ps).reported⟩
      | .err msg =>
        if rejectionSilent msg then insert_products_batch ins ps
        else ⟨(insert_products_batch ins ps).successful,
          (insert_products_batch ins ps).skippedNoName,
          (p, msg) :: (insert_products_batch ins ps).reported⟩

/-- Keyword cascade of fix_categories.py categorize_product (lines 13-70): the
same two-tier idea as the combine-script cascade but with slightly smaller
token lists, no jacket condition on the short-sleeve exception, and a shorts
tier that also rejects a sleeve name when the url contains short. -/
def categorize_product (p : Product) : Except Unit String :=
  match pyLowerOfGet p.url with
  | .error e => .error e
  | .ok url =>
    match pyLowerOfGet p.name with
    | .error e => .error e
    | .ok name =>
      if anyTokenIn url name ["accessories", "beanie", "hat", "cap", "sock", "glove",
          "belt", "bag", "backpack", "headband", "wristband", "towel", "gift"] then
        .ok "Accessories"
      else if anyTokenIn url name ["jacket", "hoodie", "vest", "fleece", "blazer",
          "coat", "pullover", "quarter-zip", "half-zip", "full-zip"] then
        if strContains name "short" && strContains name "sleeve" then .ok "Tops"
        else .ok "Outerwear"
      else if anyTokenIn url name ["bra", "sports-bra", "sportsbra"] then .ok "Sports Bras"
      else if strContains url "legging" || strContains name "legging" then .ok "Leggings"
      else if (strContains url "short" || strContains name "short") && !strContains name "sleeve" then
        .ok "Shorts"
      else if anyTokenIn url name ["pant", "jogger", "bottom", "sweatpant", "trouser",
          "commuter", "chino", "swift"] then .ok "Bottoms"
      else if anyTokenIn url name ["shirt", "tee", "t-shirt", "tank", "polo", "top",
          "henley", "crew", "v-neck", "sleeve", "crewneck"] then .ok "Tops"
      else .ok "Tops"

/-- Modelled from the spec wording of the completeness policy, for comparison
with the code: an incoming value is called empty when it is null, the empty
string, or an empty sequence. -/
def specEmptyValue : Value → Bool
  | .vnull => true
  | .vstr s => s == ""
  | .vlist l => l.isEmpty
  | _ => false

/-- A record transformer that never changes the url field; the merge steps on
the other fields all have this shape. -/
def PreservesUrl (k : Product → Product × Bool) : Prop :=
  ∀ p, (k p).1.url = p.url

/-- Well-formedness of the accumulation map: keys are pairwise distinct and
every stored record recomputes to its own key. -/
def MapWF (m : ProductMap) : Prop :=
  (m.map Prod.fst).Nodup ∧ ∀ kv ∈ m, recKey kv.2 = kv.1

/-- Batch driver of upload_data.py upload_products (lines 30-45): slice the
input into batches of 100, call the batch insert on each, and tally
`total_uploaded` by the full batch length after each call. -/
def upload_products (ins : Product → InsertResult) (products : List Product) :
    Nat × List BatchResult :=
  ((products.toChunks 100).foldl (fun acc b => acc + b.length) 0,
    (products.toChunks 100).map (insert_products_batch ins))



/-! Helper lemmas shared by several claims. -/

/-- Value produced by a successful field merge is one of the two inputs. -/
theorem mergeField_ok_cases {a b v : Option Value} (h : mergeField a b = .ok v) :
    v = a ∨ v = b := by
  cases b with
  | none =>
    simp only [mergeField] at h
    cases h
    exact Or.inl rfl
  | some w =>
    simp only [mergeField] at h
    cases hm : mergeAdopt a w with
    | error e => rw [hm] at h; cases h
    | ok bb =>
      rw [hm] at h
      cases h
      cases bb with
      | true => exact Or.inr (by simp)
      | false => exact Or.inl (by simp)

theorem mergeStep_preservesUrl (inv : Option Value) (get : Product → Option Value)
    (set : Product → Option Value → Product) (k : Product → Product × Bool)
    (hset : ∀ p v, (set p v).url = p.url) (hk : PreservesUrl k) :
    PreservesUrl (mergeStep inv get set k) := by
  intro p
  unfold mergeStep
  cases mergeField (get p) inv with
  | error e => rfl
  | ok v => exact (hk (set p v)).trans (hset p v)

theorem mergeInto_url_cases (e i : Product) :
    (mergeInto e i).1.url = e.url ∨ (mergeInto e i).1.url = i.url := by
  unfold mergeInto
  cases hm : mergeField e.url i.url with
  | error err => exact Or.inl (by simp [mergeStep, hm])
  | ok v =>
    have hK : PreservesUrl
        (mergeStep i.product_id (fun p => p.product_id) (fun p v => { p with product_id := v })
        (mergeStep i.name (fun p => p.name) (fun p v => { p with name := v })
        (mergeStep i.category (fun p => p.category) (fun p v => { p with category := v })
        (mergeStep i.gender (fun p => p.gender) (fun p v => { p with gender := v })
        (mergeStep i.scraped_at (fun p => p.scraped_at) (fun p v => { p with scraped_at := v })
        (mergeStep i.currency (fun p => p.currency) (fun p v => { p with currency := v })
        (mergeStep i.colors (fun p => p.colors) (fun p v => { p with colors := v })
        (mergeStep i.sizes (fun p => p.sizes) (fun p v => { p with sizes := v })
        (mergeStep i.fabrics (fun p => p.fabrics) (fun p v => { p with fabrics := v })
        (mergeStep i.images (fun p => p.images) (fun p v => { p with images := v })
        (mergeStep i.image (fun p => p.image) (fun p v => { p with image := v })
        (mergeStep i.is_best_seller (fun p => p.is_best_seller) (fun p v => { p with is_best_seller := v })
        (mergeStep i.original_price (fun p => p.original_price) (fun p v => { p with original_price := v })
        (mergeStep i.price (fun p => p.price) (fun p v => { p with price := v })
        (fun p => (p, false)))))))))))))))) := by
      repeat
        first
        | exact fun p => rfl
        | refine mergeStep_preservesUrl _ _ _ _ (fun p v => rfl) ?_
    have hv : (mergeStep i.url (fun p => p.url) (fun p v => { p with url := v })
        (mergeStep i.product_id (fun p => p.product_id) (fun p v => { p with product_id := v })
        (mergeStep i.name (fun p => p.name) (fun p v => { p with name := v })
        (mergeStep i.category (fun p => p.category) (fun p v => { p with category := v })
        (mergeStep i.gender (fun p => p.gender) (fun p v => { p with gender := v })
        (mergeStep i.scraped_at (fun p => p.scraped_at) (fun p v => { p with scraped_at := v })
        (mergeStep i.currency (fun p => p.currency) (fun p v => { p with currency := v })
        (mergeStep i.colors (fun p => p.colors) (fun p v => { p with colors := v })
        (mergeStep i.sizes (fun p => p.sizes) (fun p v => { p with sizes := v })
        (mergeStep i.fabrics (fun p => p.fabrics) (fun p v => { p with fabrics := v })
        (mergeStep i.images (fun p => p.images) (fun p v => { p with images := v })
        (mergeStep i.image (fun p => p.image) (fun p v => { p with image := v })
        (mergeStep i.is_best_seller (fun p => p.is_best_seller) (fun p v => { p with is_best_seller := v })
        (mergeStep i.original_price (fun p => p.original_price) (fun p v => { p with original_price := v })
        (mergeStep i.price (fun p => p.price) (fun p v => { p with price := v })
        (fun p => (p, false)))))))))))))))) e).1.url = v := by
      unfold mergeStep
      rw [hm]
      exact hK { e with url := v }
    rw [hv]
    exact mergeField_ok_cases hm



theorem alistFind_none_not_mem {m : ProductMap} {k : String}
    (h : alistFind m k = none) : ∀ kv ∈ m, kv.1 ≠ k := by
  induction m with
  | nil => intro kv hkv; cases hkv
  | cons hd tl ih =>
    intro kv hkv
    obtain ⟨k', v'⟩ := hd
    unfold alistFind at h
    by_cases hk : k' = k
    · simp [hk] at h
    · rw [if_neg hk] at h
      rcases List.mem_cons.1 hkv with h1 | h1
      · rw [h1]; exact hk
      · exact ih h kv h1

theorem alistFind_some_mem {m : ProductMap} {k : String} {v : Product}
    (h : alistFind m k = some v) : (k, v) ∈ m := by
  induction m with
  | nil => cases h
  | cons hd tl ih =>
    obtain ⟨k', v'⟩ := hd
    unfold alistFind at h
    by_cases hk : k' = k
    · rw [if_pos hk] at h
      cases h
      rw [← hk]
      exact List.mem_cons_self _ _
    · rw [if_neg hk] at h
      exact List.mem_cons_of_mem _ (ih h)

theorem alistSet_keys_found {m : ProductMap} {k : String} {v0 : Product}
    (h : alistFind m k = some v0) (v : Product) :
    (alistSet m k v).map Prod.fst = m.map Prod.fst := by
  induction m with
  | nil => cases h
  | cons hd tl ih =>
    obtain ⟨k', v'⟩ := hd
    unfold alistFind at h
    unfold alistSet
    by_cases hk : k' = k
    · rw [if_pos hk]; simp
    · rw [if_neg hk] at h
      rw [if_neg hk]
      simp [ih h]

theorem alistSet_keys_none {m : ProductMap} {k : String}
    (h : alistFind m k = none) (v : Product) :
    (alistSet m k v).map Prod.fst = m.map Prod.fst ++ [k] := by
  induction m with
  | nil => rfl
  | cons hd tl ih =>
    obtain ⟨k', v'⟩ := hd
    unfold alistFind at h
    unfold alistSet
    by_cases hk : k' = k
    · simp [hk] at h
    · rw [if_neg hk] at h
      rw [if_neg hk]
      simp [ih h]

theorem alistSet_mem {m : ProductMap} {k : String} {v : Product} :
    ∀ kv ∈ alistSet m k v, kv ∈ m ∨ kv = (k, v) := by
  induction m with
  | nil =>
    intro kv hkv
    unfold alistSet at hkv
    rcases List.mem_cons.1 hkv with h1 | h1
    · exact Or.inr h1
    · cases h1
  | cons hd tl ih =>
    intro kv hkv
    obtain ⟨k', v'⟩ := hd
    unfold alistSet at hkv
    by_cases hk : k' = k
    · rw [if_pos hk] at hkv
      rcases List.mem_cons.1 hkv with h1 | h1
      · right; rw [h1, hk]
      · left; exact List.mem_cons_of_mem _ h1
    · rw [if_neg hk] at hkv
      rcases List.mem_cons.1 hkv with h1 | h1
      · left; rw [h1]; exact List.mem_cons_self _ _
      · rcases ih kv h1 with h2 | h2
        · left; exact List.mem_cons_of_mem _ h2
        · right; exact h2

theorem setFileCategory_url (fc : Option String) (p : Product) :
    (setFileCategory fc p).url = p.url := by
  cases fc with
  | none => rfl
  | some c =>
    unfold setFileCategory
    by_cases h : truthyOpt p.category = true
    · simp [h]
    · simp [h]

theorem processProduct_WF (fc : Option String) (m : ProductMap) (p : Product)
    (hwf : MapWF m) : MapWF (processProduct fc m p).1 := by
  unfold processProduct
  by_cases h1 : (!truthyOpt p.url || !truthyOpt p.product_id) = true
  · rw [if_pos h1]; exact hwf
  · rw [if_neg h1]
    cases hu : p.url with
    | none => simp only [hu]; exact hwf
    | some v =>
      cases v with
      | vstr u =>
        have hp1url : (setFileCategory fc p).url = some (Value.vstr u) := by
          rw [setFileCategory_url, hu]
        simp only [hu]
        cases hf : alistFind m (uniqueUrl u) with
        | none =>
          simp only [hf]
          constructor
          · rw [alistSet_keys_none hf]
            rw [List.nodup_append]
            refine ⟨hwf.1, List.nodup_singleton _, ?_⟩
            intro a ha hb
            rcases List.mem_singleton.1 hb with rfl
            rcases List.mem_map.1 ha with ⟨kv, hkv, hfst⟩
            exact alistFind_none_not_mem hf kv hkv hfst
          · intro kv hkv
            rcases alistSet_mem kv hkv with h2 | h2
            · exact hwf.2 kv h2
            · rw [h2]
              simp only [recKey, hp1url]
        | some existing =>
          simp only [hf]
          have hex : recKey existing = uniqueUrl u :=
            hwf.2 (uniqueUrl u, existing) (alistFind_some_mem hf)
          have hmurl : (mergeInto existing (setFileCategory fc p)).1.url = existing.url ∨
              (mergeInto existing (setFileCategory fc p)).1.url = some (Value.vstr u) := by
            rcases mergeInto_url_cases existing (setFileCategory fc p) with h2 | h2
            · exact Or.inl h2
            · rw [hp1url] at h2; exact Or.inr h2
          have hmkey : recKey (mergeInto existing (setFileCategory fc p)).1 = uniqueUrl u := by
            rcases hmurl with h2 | h2
            · rw [← hex]; simp only [recKey, h2]
            · simp only [recKey, h2]
          have hstep : ∀ w : Product, recKey w = uniqueUrl u →
              MapWF (alistSet m (uniqueUrl u) w) := by
            intro w hw
            constructor
            · rw [alistSet_keys_found hf]; exact hwf.1
            · intro kv hkv
              rcases alistSet_mem kv hkv with h2 | h2
              · exact hwf.2 kv h2
              · rw [h2]; exact hw
          by_cases hr : (mergeInto existing (setFileCategory fc p)).2 = true
          · rw [if_pos hr]
            exact hstep _ hmkey
          · rw [if_neg hr]
            cases fc with
            | none => exact hstep _ hmkey
            | some c =>
              refine hstep _ ?_
              simp only [recKey] at hmkey ⊢
              exact hmkey
      | vnull => simp only [hu]; exact hwf
      | vbool b => simp only [hu]; exact hwf
      | vint n => simp only [hu]; exact hwf
      | vlist l => simp only [hu]; exact hwf

theorem processProducts_WF (fc : Option String) :
    ∀ (ps : List Product) (m : ProductMap), MapWF m → MapWF (processProducts fc m ps) := by
  intro ps
  induction ps with
  | nil => intro m hwf; exact hwf
  | cons p rest ih =>
    intro m hwf
    unfold processProducts
    by_cases hr : (processProduct fc m p).2 = true
    · simp only [hr, if_true]
      exact processProduct_WF fc m p hwf
    · simp only [hr, if_false, Bool.false_eq_true]
      exact ih _ (processProduct_WF fc m p hwf)

theorem buildMap_WF :
    ∀ (files : List (String × List Product)) (m : ProductMap),
      MapWF m → MapWF (buildMap m files) := by
  intro files
  induction files with
  | nil => intro m hwf; exact hwf
  | cons f rest ih =>
    intro m hwf
    obtain ⟨fname, ps⟩ := f
    exact ih _ (processProducts_WF _ ps m hwf)



theorem fixCategory_url {p q : Product} (h : fixCategory p = .ok q) : q.url = p.url := by
  unfold fixCategory at h
  by_cases hc : categoryUnset p.category = true
  · rw [if_pos hc] at h
    cases h1 : pyLowerOfGet p.url with
    | error e => rw [h1] at h; cases h
    | ok url =>
      rw [h1] at h
      cases h2 : pyLowerOfGet p.name with
      | error e => rw [h2] at h; cases h
      | ok name => rw [h2] at h; cases h; rfl
  · rw [if_neg hc] at h; cases h; rfl

theorem fixGender_url {p q : Product} (h : fixGender p = .ok q) : q.url = p.url := by
  unfold fixGender at h
  cases h1 : pyLowerOfGet p.url with
  | error e => rw [h1] at h; cases h
  | ok url =>
    simp only [h1] at h
    by_cases h2 : (strContains url "womens" || strContains url "/women") = true
    · rw [if_pos h2] at h; cases h; rfl
    · rw [if_neg h2] at h
      by_cases h3 : (strContains url "mens" || strContains url "/men") = true
      · rw [if_pos h3] at h; cases h; rfl
      · rw [if_neg h3] at h; cases h; rfl

theorem cleanupProduct_url {now : String} {p q : Product}
    (h : cleanupProduct now p = .ok q) : q.url = p.url := by
  unfold cleanupProduct at h
  cases hc : fixCategory (normalizeDefaults now p) with
  | error e => rw [hc] at h; cases h
  | ok p2 =>
    rw [hc] at h
    have h2 : p2.url = (normalizeDefaults now p).url := fixCategory_url hc
    have h3 : (normalizeDefaults now p).url = p.url := rfl
    have h4 : q.url = p2.url := fixGender_url h
    rw [h4, h2, h3]

theorem cleanupAll_map_recKey {now : String} :
    ∀ {m : ProductMap} {out : List Product}, cleanupAll now m = .ok out →
      out.map recKey = m.map (fun kv => recKey kv.2) := by
  intro m
  induction m with
  | nil => intro out h; cases h; rfl
  | cons kv rest ih =>
    intro out h
    unfold cleanupAll at h
    cases hc : cleanupProduct now kv.2 with
    | error e => rw [hc] at h; cases h
    | ok q =>
      rw [hc] at h
      cases hr : cleanupAll now rest with
      | error e => rw [hr] at h; cases h
      | ok qs =>
        rw [hr] at h
        cases h
        have hq : recKey q = recKey kv.2 := by
          unfold recKey
          rw [cleanupProduct_url hc]
        simp only [List.map_cons, hq, ih hr]

/-- C9: at the end of one reconciliation run no two records of the canonical
output list share a canonical key: the accumulation map is keyed by the
canonical key, each stored record recomputes to its own key, and the clean-up
pass never changes a url, so the recomputed keys of the output are pairwise
distinct. -/
theorem combine_c9_output_keys_nodup (now : String) (files : List (String × List Product))
    (out : List Product) (h : combine_manual_scrapes now files = .ok out) :
    (out.map recKey).Nodup := by
  have hwf : MapWF (buildMap [] files) :=
    buildMap_WF files [] ⟨List.nodup_nil, by intro kv hkv; cases hkv⟩
  unfold combine_manual_scrapes at h
  rw [cleanupAll_map_recKey h]
  rw [List.map_congr_left (fun kv hkv => hwf.2 kv hkv)]
  exact hwf.1

/-- Witness for C9: a concrete two-file run whose hypotheses are discharged by
evaluation. -/
theorem combine_c9_witness :
    (([{ url := some (.vstr "https://x.test/p/a?scrollTo=1"), product_id := some (.vstr "1"),
         name := some (.vstr "Alpha Jogger Premium"), category := some (.vstr "Bottoms"),
         scraped_at := some (.vstr "T"), currency := some (.vstr "USD"),
         colors := some (.vlist []), sizes := some (.vlist []), fabrics := some (.vlist []),
         images := some (.vlist []), is_best_seller := some (.vbool false) },
       { url := some (.vstr "https://x.test/p/b"), product_id := some (.vstr "2"),
         name := some (.vstr "Beta Jogger"), category := some (.vstr "Bottoms"),
         scraped_at := some (.vstr "T"), currency := some (.vstr "USD"),
         colors := some (.vlist []), sizes := some (.vlist []), fabrics := some (.vlist []),
         images := some (.vlist []), is_best_seller := some (.vbool false) }] :
      List Product).map recKey).Nodup :=
  combine_c9_output_keys_nodup "T"
    [("data/rhone_products_a.json",
      [{ url := some (.vstr "https://x.test/p/a?scrollTo=1"), product_id := some (.vstr "1"),
         name := some (.vstr "Alpha Jogger"), category := some (.vstr "Bottoms") },
       { url := some (.vstr "https://x.test/p/b"), product_id := some (.vstr "2"),
         name := some (.vstr "Beta Jogger"), category := some (.vstr "Bottoms") },
       { url := some (.vstr "https://x.test/p/a?scrollTo=2"), product_id := some (.vstr "1"),
         name := some (.vstr "Alpha Jogger Premium"), category := some (.vstr "Bottoms") }])]
    _ rfl



/-- C1: evaluation of the URL key at the inputs named by the claim.  The code
computes the key with a substring test for the literal text question mark
followed by variant, so a variant parameter that is not the first query
parameter is dropped: the claimed key for the first URL is
https://x.test/p/item?variant=9, but the code yields the bare base URL.  The
third conjunct shows the variant is kept only when it directly follows the
question mark. -/
theorem uniqueUrl_c1_eval :
    uniqueUrl "https://x.test/p/item?scrollTo=top&variant=9" = "https://x.test/p/item"
    ∧ uniqueUrl "https://x.test/p/item?scrollTo=top" = "https://x.test/p/item"
    ∧ uniqueUrl "https://x.test/p/item?variant=9&scrollTo=top" = "https://x.test/p/item?variant=9" :=
  ⟨rfl, rfl, rfl⟩

/-- C5: the Record Normalizer (default filling, image-to-images rewrite,
original_price-to-price rewrite) is idempotent; the second pass may even run
with a different current timestamp without changing the result. -/
theorem normalizeDefaults_c5_idempotent (now1 now2 : String) (p : Product) :
    normalizeDefaults now2 (normalizeDefaults now1 p) = normalizeDefaults now1 p := rfl

/-- C10: normalization moves original_price into price unconditionally
(replacing any present price) and no normalized record retains an
original_price field. -/
theorem normalizeDefaults_c10_price (now : String) (p : Product) :
    (normalizeDefaults now p).original_price = none
    ∧ (∀ v : Value, p.original_price = some v → (normalizeDefaults now p).price = some v) := by
  refine ⟨rfl, ?_⟩
  intro v hv
  simp only [normalizeDefaults, hv]

/-- Witness for C10 at a record that carries both original_price and price:
the original_price value replaces the present price. -/
theorem normalizeDefaults_c10_witness :
    (normalizeDefaults "T"
      { original_price := some (.vint 98), price := some (.vint 55) }).price =
      some (.vint 98) :=
  (normalizeDefaults_c10_price "T"
    { original_price := some (.vint 98), price := some (.vint 55) }).2 (.vint 98) rfl

/-- C7: gender classification inspects only the URL; a womens signal in the
lower-cased URL sets Women, otherwise a mens signal sets Men (overwriting any
previously supplied gender), and with neither signal the record is returned
unchanged. -/
theorem fixGender_c7_url_only (p : Product) (s : String) (h : p.url = some (.vstr s)) :
    ((strContains (lowerStr s) "womens" || strContains (lowerStr s) "/women") = true →
      fixGender p = .ok { p with gender := some (.vstr "Women") })
    ∧ ((strContains (lowerStr s) "womens" || strContains (lowerStr s) "/women") = false →
      (strContains (lowerStr s) "mens" || strContains (lowerStr s) "/men") = true →
      fixGender p = .ok { p with gender := some (.vstr "Men") })
    ∧ ((strContains (lowerStr s) "womens" || strContains (lowerStr s) "/women") = false →
      (strContains (lowerStr s) "mens" || strContains (lowerStr s) "/men") = false →
      fixGender p = .ok p) := by
  have hg : pyLowerOfGet p.url = .ok (lowerStr s) := by rw [h]; rfl
  refine ⟨?_, ?_, ?_⟩
  · intro h1
    unfold fixGender
    simp only [hg]
    rw [if_pos h1]
  · intro h1 h2
    unfold fixGender
    simp only [hg]
    rw [if_neg (by simp [h1]), if_pos h2]
  · intro h1 h2
    unfold fixGender
    simp only [hg]
    rw [if_neg (by simp [h1]), if_neg (by simp [h2])]

/-- Witness for C7: a record whose URL contains /mens/ and whose gender is
already Women is reclassified to Men. -/
theorem fixGender_c7_witness :
    fixGender { url := some (.vstr "https://x.test/mens/item"),
                gender := some (.vstr "Women") } =
      .ok { url := some (.vstr "https://x.test/mens/item"),
            gender := some (.vstr "Men") } :=
  (fixGender_c7_url_only
    { url := some (.vstr "https://x.test/mens/item"), gender := some (.vstr "Women") }
    "https://x.test/mens/item" rfl).2.1 rfl rfl

/-- C6: on records with an unset or placeholder category, the ordered keyword
cascade classifies the name Quarter-Zip Short Sleeve Pullover as Tops (the
short-plus-sleeve exception on the Outerwear tier fires, with jacket absent
from the name) and Quarter-Zip Pullover as Outerwear, both in the
combine-script cascade and in the fix_categories.py cascade. -/
theorem categorize_c6_cascade (p q : Product)
    (hpc : categoryUnset p.category = true)
    (hpu : p.url = some (.vstr "https://x.test/p/item"))
    (hpn : p.name = some (.vstr "Quarter-Zip Short Sleeve Pullover"))
    (hqc : categoryUnset q.category = true)
    (hqu : q.url = some (.vstr "https://x.test/p/item"))
    (hqn : q.name = some (.vstr "Quarter-Zip Pullover")) :
    fixCategory p = .ok { p with category := some (.vstr "Tops") }
    ∧ fixCategory q = .ok { q with category := some (.vstr "Outerwear") }
    ∧ categorize_product p = .ok "Tops"
    ∧ categorize_product q = .ok "Outerwear" := by
  have h1 : pyLowerOfGet p.url = .ok (lowerStr "https://x.test/p/item") := by rw [hpu]; rfl
  have h2 : pyLowerOfGet p.name = .ok (lowerStr "Quarter-Zip Short Sleeve Pullover") := by
    rw [hpn]; rfl
  have h3 : pyLowerOfGet q.url = .ok (lowerStr "https://x.test/p/item") := by rw [hqu]; rfl
  have h4 : pyLowerOfGet q.name = .ok (lowerStr "Quarter-Zip Pullover") := by rw [hqn]; rfl
  refine ⟨?_, ?_, ?_, ?_⟩
  · unfold fixCategory
    rw [if_pos hpc]
    simp only [h1, h2]
    rfl
  · unfold fixCategory
    rw [if_pos hqc]
    simp only [h3, h4]
    rfl
  · unfold categorize_product
    simp only [h1, h2]
    rfl
  · unfold categorize_product
    simp only [h3, h4]
    rfl

/-- Witness for C6: the two names at concrete records with no category. -/
theorem categorize_c6_witness :
    fixCategory { url := some (.vstr "https://x.test/p/item"),
                  name := some (.vstr "Quarter-Zip Short Sleeve Pullover") } =
      .ok { url := some (.vstr "https://x.test/p/item"),
            name := some (.vstr "Quarter-Zip Short Sleeve Pullover"),
            category := some (.vstr "Tops") }
    ∧ fixCategory { url := some (.vstr "https://x.test/p/item"),
                    name := some (.vstr "Quarter-Zip Pullover") } =
      .ok { url := some (.vstr "https://x.test/p/item"),
            name := some (.vstr "Quarter-Zip Pullover"),
            category := some (.vstr "Outerwear") } :=
  ⟨(categorize_c6_cascade
      { url := some (.vstr "https://x.test/p/item"),
        name := some (.vstr "Quarter-Zip Short Sleeve Pullover") }
      { url := some (.vstr "https://x.test/p/item"),
        name := some (.vstr "Quarter-Zip Pullover") }
      rfl rfl rfl rfl rfl rfl).1,
   (categorize_c6_cascade
      { url := some (.vstr "https://x.test/p/item"),
        name := some (.vstr "Quarter-Zip Short Sleeve Pullover") }
      { url := some (.vstr "https://x.test/p/item"),
        name := some (.vstr "Quarter-Zip Pullover") }
      rfl rfl rfl rfl rfl rfl).2.1⟩



/-- C3 counterexample: a boolean conflict where neither value is empty in the
sense of the claim (null, empty string, empty sequence).  The claim requires
the existing first-seen scalar to be kept, but the code tests Python
truthiness, so an incoming True replaces an existing False. -/
theorem mergeField_c3_counterexample :
    specEmptyValue (.vbool false) = false
    ∧ specEmptyValue (.vbool true) = false
    ∧ mergeField (some (.vbool false)) (some (.vbool true)) = .ok (some (.vbool true)) :=
  ⟨rfl, rfl, rfl⟩

/-- C3 (amended): the per-field completeness policy with empty meaning Python
falsy (null, empty string, empty sequence, zero, false): a falsy incoming
value is discarded; a truthy incoming value replaces an absent or falsy
existing value; two truthy sequences adopt the longer with ties keeping the
existing; two truthy strings adopt the longer with ties keeping the existing;
a truthy incoming integer or boolean never replaces a truthy existing
value. -/
theorem mergeField_c3_amended :
    (∀ (exv : Option Value) (v : Value), truthy v = false →
      mergeField exv (some v) = .ok exv)
    ∧ (∀ v : Value, truthy v = true → mergeField none (some v) = .ok (some v))
    ∧ (∀ e v : Value, truthy v = true → truthy e = false →
      mergeField (some e) (some v) = .ok (some v))
    ∧ (∀ l1 l2 : List Value, l1.isEmpty = false → l2.isEmpty = false →
      mergeField (some (.vlist l1)) (some (.vlist l2)) =
        .ok (some (if l1.length < l2.length then .vlist l2 else .vlist l1)))
    ∧ (∀ s1 s2 : String, s1 ≠ "" → s2 ≠ "" →
      mergeField (some (.vstr s1)) (some (.vstr s2)) =
        .ok (some (if s1.length < s2.length then .vstr s2 else .vstr s1)))
    ∧ (∀ (e : Value) (n : Int), truthy e = true → truthy (.vint n) = true →
      mergeField (some e) (some (.vint n)) = .ok (some e))
    ∧ (∀ e : Value, truthy e = true →
      mergeField (some e) (some (.vbool true)) = .ok (some e)) := by
  refine ⟨?_, ?_, ?_, ?_, ?_, ?_, ?_⟩
  · intro exv v h
    simp [mergeField, mergeAdopt, h]
  · intro v h
    simp [mergeField, mergeAdopt, h]
  · intro e v h1 h2
    cases v <;> simp_all [mergeField, mergeAdopt]
  · intro l1 l2 h1 h2
    by_cases hl : l1.length < l2.length <;>
      simp [mergeField, mergeAdopt, pyLenOf, truthy, h1, h2, hl]
  · intro s1 s2 h1 h2
    by_cases hl : s1.length < s2.length <;>
      simp [mergeField, mergeAdopt, pyStr, truthy, h1, h2, hl]
  · intro e n h1 h2
    simp [mergeField, mergeAdopt, h1, h2]
  · intro e h1
    simp [mergeField, mergeAdopt, h1]

/-- Witness for C3 (amended): each branch of the policy at concrete values. -/
theorem mergeField_c3_amended_witness :
    mergeField (some (.vstr "keep")) (some .vnull) = .ok (some (.vstr "keep"))
    ∧ mergeField none (some (.vint 7)) = .ok (some (.vint 7))
    ∧ mergeField (some (.vstr "")) (some (.vstr "full")) = .ok (some (.vstr "full"))
    ∧ mergeField (some (.vlist [.vstr "Black"]))
        (some (.vlist [.vstr "Black", .vstr "Navy"])) =
        .ok (some (.vlist [.vstr "Black", .vstr "Navy"]))
    ∧ mergeField (some (.vstr "Jogger")) (some (.vstr "Jogger Premium")) =
        .ok (some (.vstr "Jogger Premium"))
    ∧ mergeField (some (.vint 55)) (some (.vint 98)) = .ok (some (.vint 55)) :=
  ⟨mergeField_c3_amended.1 (some (.vstr "keep")) .vnull rfl,
   mergeField_c3_amended.2.1 (.vint 7) rfl,
   mergeField_c3_amended.2.2.1 (.vstr "") (.vstr "full") rfl rfl,
   mergeField_c3_amended.2.2.2.1 [.vstr "Black"] [.vstr "Black", .vstr "Navy"] rfl rfl,
   mergeField_c3_amended.2.2.2.2.1 "Jogger" "Jogger Premium" (by decide) (by decide),
   mergeField_c3_amended.2.2.2.2.2.1 (.vint 55) 98 rfl rfl⟩

/-- C2 counterexample: a run over one file holding a single record with url
and product_id but no name.  The record is fully processed and appears in the
canonical output list (with name still absent), contradicting the half of the
claim that says it never appears there. -/
theorem combine_c2_counterexample :
    combine_manual_scrapes "2024-01-01T00:00:00"
      [("data/rhone_products_batch.json",
        [{ url := some (.vstr "https://x.test/p/item"), product_id := some (.vstr "1") }])] =
      .ok [{ url := some (.vstr "https://x.test/p/item"), product_id := some (.vstr "1"),
             category := some (.vstr "Tops"),
             scraped_at := some (.vstr "2024-01-01T00:00:00"), currency := some (.vstr "USD"),
             colors := some (.vlist []), sizes := some (.vlist []), fabrics := some (.vlist []),
             images := some (.vlist []), is_best_seller := some (.vbool false) }]
    ∧ truthyOpt ({ url := some (.vstr "https://x.test/p/item"),
                   product_id := some (.vstr "1"), category := some (.vstr "Tops"),
                   scraped_at := some (.vstr "2024-01-01T00:00:00"),
                   currency := some (.vstr "USD"), colors := some (.vlist []),
                   sizes := some (.vlist []), fabrics := some (.vlist []),
                   images := some (.vlist []),
                   is_best_seller := some (.vbool false) } : Product).name = false :=
  ⟨rfl, rfl⟩

/-- C2 (amended): a record with an absent or empty name is skipped by the
batch writer before the store insert is attempted, so every record in the
accepted list has a truthy name; the record does however remain in the
canonical output list produced by the assembler. -/
theorem insert_c2_accepted_have_names (ins : Product → InsertResult)
    (products : List Product) (p : Product)
    (hp : p ∈ (insert_products_batch ins products).successful) :
    truthyOpt p.name = true := by
  induction products with
  | nil => cases hp
  | cons q rest ih =>
    unfold insert_products_batch at hp
    by_cases hn : (!truthyOpt q.name) = true
    · rw [if_pos hn] at hp
      exact ih hp
    · rw [if_neg hn] at hp
      have hn' : truthyOpt q.name = true := by simpa using hn
      cases hq : ins q with
      | ok =>
        simp only [hq] at hp
        replace hp : p ∈ q :: (insert_products_batch ins rest).successful := hp
        rcases List.mem_cons.1 hp with h | h
        · rw [h]; exact hn'
        · exact ih h
      | err msg =>
        simp only [hq] at hp
        by_cases hs : rejectionSilent msg = true
        · rw [if_pos hs] at hp
          exact ih hp
        · rw [if_neg hs] at hp
          replace hp : p ∈ (insert_products_batch ins rest).successful := hp
          exact ih hp

/-- Witness for C2 (amended): a named record accepted by a store that accepts
everything has a truthy name. -/
theorem insert_c2_accepted_have_names_witness :
    truthyOpt ({ name := some (.vstr "Jogger") } : Product).name = true :=
  insert_c2_accepted_have_names (fun _ => .ok) [{ name := some (.vstr "Jogger") }]
    { name := some (.vstr "Jogger") } (List.Mem.head _)

/-- C8: per-record failure isolation of the batch writer.  The head record is
attempted individually: when accepted it is prepended to the accepted list;
a rejection with a silent reason (duplicate, unique, null value) leaves no
trace; any other rejection is reported for that record only; and in every
case the result on the remaining records is exactly the result of processing
them alone, so no rejection aborts the batch.  The last conjunct states the
batch driver applies the same total per-batch function to every chunk of 100,
so later batches are processed whatever earlier ones did. -/
theorem insert_c8_isolation (ins : Product → InsertResult) (p : Product)
    (ps qs : List Product) :
    ((insert_products_batch ins (p :: ps)).successful =
      (if truthyOpt p.name then
        match ins p with
        | .ok => [p]
        | .err _ => []
      else []) ++ (insert_products_batch ins ps).successful)
    ∧ ((insert_products_batch ins (p :: ps)).reported =
      (if truthyOpt p.name then
        match ins p with
        | .ok => []
        | .err msg => if rejectionSilent msg then [] else [(p, msg)]
      else []) ++ (insert_products_batch ins ps).reported)
    ∧ ((insert_products_batch ins (p :: ps)).skippedNoName =
      (insert_products_batch ins ps).skippedNoName + (if truthyOpt p.name then 0 else 1))
    ∧ (upload_products ins qs).2 = (qs.toChunks 100).map (insert_products_batch ins) := by
  refine ⟨?_, ?_, ?_, rfl⟩
  · by_cases hn : truthyOpt p.name = true
    · cases hq : ins p with
      | ok => simp [insert_products_batch, hn, hq]
      | err msg =>
        by_cases hs : rejectionSilent msg = true <;>
          simp [insert_products_batch, hn, hq, hs]
    · simp only [Bool.not_eq_true] at hn
      simp [insert_products_batch, hn]
  · by_cases hn : truthyOpt p.name = true
    · cases hq : ins p with
      | ok => simp [insert_products_batch, hn, hq]
      | err msg =>
        by_cases hs : rejectionSilent msg = true <;>
          simp [insert_products_batch, hn, hq, hs]
    · simp only [Bool.not_eq_true] at hn
      simp [insert_products_batch, hn]
  · by_cases hn : truthyOpt p.name = true
    · cases hq : ins p with
      | ok => simp [insert_products_batch, hn, hq]
      | err msg =>
        by_cases hs : rejectionSilent msg = true <;>
          simp [insert_products_batch, hn, hq, hs]
    · simp only [Bool.not_eq_true] at hn
      simp [insert_products_batch, hn]

/-- C4 counterexample: a file whose name contains the accessories token, read
with a record whose category is the placeholder Other.  The filename tier is
skipped because the category value is truthy, the placeholder is later
re-derived from text, and the record ends the run categorised Tops, not with
the filename-derived category. -/
theorem combine_c4_counterexample :
    extract_category_from_filename "rhone_products_accessories.json" = some "Accessories"
    ∧ combine_manual_scrapes "2024-01-01T00:00:00"
        [("rhone_products_accessories.json",
          [{ url := some (.vstr "https://x.test/p/item"), product_id := some (.vstr "1"),
             name := some (.vstr "Widget"), category := some (.vstr "Other") }])] =
      .ok [{ url := some (.vstr "https://x.test/p/item"), product_id := some (.vstr "1"),
             name := some (.vstr "Widget"), category := some (.vstr "Tops"),
             scraped_at := some (.vstr "2024-01-01T00:00:00"), currency := some (.vstr "USD"),
             colors := some (.vlist []), sizes := some (.vlist []), fabrics := some (.vlist []),
             images := some (.vlist []), is_best_seller := some (.vbool false) }]
    ∧ ("Tops" : String) ≠ "Accessories" :=
  ⟨rfl, rfl, by decide⟩

/-- C4 (amended): when the filename supplies a category, a freshly read record
receives it only if its own category is falsy (a truthy category, including
placeholders like Other, is kept at read time), while on a key collision the
filename category unconditionally overwrites the category of the merged
record. -/
theorem processProduct_c4_filename_tier (c u : String) (m : ProductMap)
    (p existing merged : Product)
    (hu : p.url = some (.vstr u)) (hne : u ≠ "")
    (hpid : truthyOpt p.product_id = true) :
    (alistFind m (uniqueUrl u) = some existing →
      mergeInto existing (setFileCategory (some c) p) = (merged, false) →
      processProduct (some c) m p =
        (alistSet m (uniqueUrl u) { merged with category := some (.vstr c) }, false))
    ∧ (alistFind m (uniqueUrl u) = none →
      processProduct (some c) m p =
        (alistSet m (uniqueUrl u) (setFileCategory (some c) p), false))
    ∧ setFileCategory (some c) p =
      (if truthyOpt p.category then p else { p with category := some (.vstr c) }) := by
  have hcond : ¬((!truthyOpt p.url || !truthyOpt p.product_id) = true) := by
    rw [hu, hpid]
    simp [truthyOpt, truthy, hne]
  refine ⟨?_, ?_, rfl⟩
  · intro hf hm
    unfold processProduct
    rw [if_neg hcond]
    simp [hu, hf, hm]
  · intro hf
    unfold processProduct
    rw [if_neg hcond]
    simp [hu, hf]

/-- Witness for C4 (amended): a collision in which the incoming record has no
category (so it receives the filename category at read time) and the merged
record ends with the filename category written over it. -/
theorem processProduct_c4_filename_tier_witness :
    processProduct (some "Accessories")
      [("https://x.test/p/a",
        { url := some (.vstr "https://x.test/p/a"), product_id := some (.vstr "1"),
          name := some (.vstr "A"), category := some (.vstr "Bottoms") })]
      { url := some (.vstr "https://x.test/p/a"), product_id := some (.vstr "1"),
        name := some (.vstr "AB") } =
      (alistSet
        [("https://x.test/p/a",
          { url := some (.vstr "https://x.test/p/a"), product_id := some (.vstr "1"),
            name := some (.vstr "A"), category := some (.vstr "Bottoms") })]
        (uniqueUrl "https://x.test/p/a")
        { url := some (.vstr "https://x.test/p/a"), product_id := some (.vstr "1"),
          name := some (.vstr "AB"), category := some (.vstr "Accessories") }, false) :=
  (processProduct_c4_filename_tier "Accessories" "https://x.test/p/a"
    [("https://x.test/p/a",
      { url := some (.vstr "https://x.test/p/a"), product_id := some (.vstr "1"),
        name := some (.vstr "A"), category := some (.vstr "Bottoms") })]
    { url := some (.vstr "https://x.test/p/a"), product_id := some (.vstr "1"),
      name := some (.vstr "AB") }
    { url := some (.vstr "https://x.test/p/a"), product_id := some (.vstr "1"),
      name := some (.vstr "A"), category := some (.vstr "Bottoms") }
    { url := some (.vstr "https://x.test/p/a"), product_id := some (.vstr "1"),
      name := some (.vstr "AB"), category := some (.vstr "Accessories") }
    rfl (by decide) rfl).1 rfl rfl

end RhoneData
